import Mathlib

/-!
Verification of the agent orchestration subsystem of the vpaura backend.

This file gives a shallow embedding of the intent router
(`src/ai_core/agents/agent_router.py`), the base-agent lifecycle helpers
(`src/ai_core/agents/base/base.py`), the RAG agent
(`src/ai_core/agents/rag_agent/agent.py`) and the Neo4j agent
(`src/ai_core/agents/neo4j_agent/agent.py`), and proves or refutes the
behavioural properties stated for them.

External capabilities (the language-model provider, the Neo4j client, the
vector store, the checkpoint store) are modelled as oracles: a call to such a
capability is an `Except String α` value supplied as a parameter, where
`Except.error e` models the call raising an exception whose `str` is `e`.
Python strings are modelled as Lean `String`s, Python `float` confidences as
exact rationals `ℚ`, and Python truthiness of strings/optionals explicitly.
-/

namespace Vpaura

/-! ## Python-style string helpers

All string operations are defined by structural recursion over the
underlying character list so that every theorem below can be settled by
kernel reduction (`decide` / `rfl`) on concrete inputs. -/

/-- Lower-case a string character by character (model of Python `str.lower`
for the ASCII inputs exchanged here). -/
def strLower (s : String) : String := ⟨s.data.map Char.toLower⟩

/-- Upper-case a string character by character (model of Python `str.upper`
for the ASCII inputs exchanged here). -/
def strUpper (s : String) : String := ⟨s.data.map Char.toUpper⟩

/-- Drop leading whitespace. -/
def dropWS (l : List Char) : List Char := l.dropWhile Char.isWhitespace

/-- Model of Python `str.strip()`: remove whitespace from both ends. -/
def strTrim (s : String) : String :=
  ⟨((dropWS s.data.reverse).reverse |> dropWS)⟩

/-- Does `needle` start at the head of `hay`? -/
def matchesAt : List Char → List Char → Bool
  | [], _ => true
  | _ :: _, [] => false
  | n :: ns, h :: hs => n == h && matchesAt ns hs

/-- Helper for `strHas`: does `n` occur contiguously in the list? -/
def hasRun (n : List Char) : List Char → Bool
  | [] => n.isEmpty
  | c :: cs => matchesAt n (c :: cs) || hasRun n cs

/-- Model of the Python substring test `needle in hay`. -/
def strHas (needle hay : String) : Bool :=
  hasRun needle.data hay.data

/-- Model of Python `str.startswith`. -/
def strStarts (s pre : String) : Bool :=
  matchesAt pre.data s.data

/-- Helper for `pySplitWS`: split on whitespace runs, accumulating the
current (reversed) token. -/
def splitWSAux (cur : List Char) : List Char → List (List Char)
  | [] => if cur.isEmpty then [] else [cur.reverse]
  | c :: cs =>
    if c.isWhitespace then
      if cur.isEmpty then splitWSAux [] cs else cur.reverse :: splitWSAux [] cs
    else splitWSAux (c :: cur) cs

/-- Model of Python `str.split()` with no separator: split on runs of
whitespace and discard empty tokens. -/
def pySplitWS (s : String) : List String :=
  (splitWSAux [] s.data).map (fun l => ⟨l⟩)

/-- Split a character list at every occurrence of `sep`, keeping empty
pieces (model of Python `str.split(sep)` with an explicit separator).  The
result is always non-empty. -/
def splitOnChar (sep : Char) : List Char → List (List Char)
  | [] => [[]]
  | c :: cs =>
    match splitOnChar sep cs with
    | [] => [[]]          -- unreachable: the result is never empty
    | t :: ts => if c == sep then [] :: t :: ts else (c :: t) :: ts

/-- Join character lists with a separator (model of `sep.join(...)`). -/
def joinWith (sep : List Char) : List (List Char) → List Char
  | [] => []
  | [t] => t
  | t :: ts => t ++ sep ++ joinWith sep ts

/-- Value of a non-empty all-digit character run, `none` otherwise. -/
def digitsVal (l : List Char) : Option ℕ :=
  if l.isEmpty then none
  else if l.all Char.isDigit then
    some (l.foldl (fun a c => a * 10 + (c.toNat - 48)) 0)
  else none

/-- `10 ^ n` as an integer, by structural recursion (kernel-reducible). -/
def tenPow : ℕ → ℤ
  | 0 => 1
  | n + 1 => 10 * tenPow n

/-- Exact decimal numeral `mant / 10 ^ exp`: the model of the Python `float`
values exchanged by this subsystem (classifier confidences, thresholds,
similarity scores).  All floats occurring here are short decimal literals,
on which exact-decimal comparison agrees with IEEE-double comparison. -/
structure Dec where
  mant : ℤ
  exp : ℕ
deriving DecidableEq, Repr

/-- The rational value a `Dec` denotes. -/
def Dec.toRat (d : Dec) : ℚ := (d.mant : ℚ) / ((tenPow d.exp : ℤ) : ℚ)

/-- Strict comparison of decimals by cross multiplication (model of Python
`<` on the floats above). -/
def Dec.blt (a b : Dec) : Bool :=
  decide (a.mant * tenPow b.exp < b.mant * tenPow a.exp)

/-- Non-strict comparison of decimals (model of Python `<=` / `>=`). -/
def Dec.ble (a b : Dec) : Bool :=
  decide (a.mant * tenPow b.exp ≤ b.mant * tenPow a.exp)

/-- Model of Python `float(s)` on the plain decimal fragment actually
exchanged by the intent classifier: an optional sign, digits, and at most one
decimal point (`"0.95"`, `"-1.5"`, `".5"`, `"3"`, `"1."`).  Exotic float
syntax (exponents, `inf`, `nan`) is outside the model and parses to `none`.
The result is the exact decimal value of the literal. -/
def parseDec? (s : String) : Option Dec :=
  match s.data with
  | [] => none
  | l =>
    let sgn : ℤ := match l with
      | '-' :: _ => -1
      | _ => 1
    let body : List Char := match l with
      | '-' :: r => r
      | '+' :: r => r
      | r => r
    match splitOnChar '.' body with
    | [ds] => (digitsVal ds).map (fun n => { mant := sgn * (n : ℤ), exp := 0 })
    | [ip, fp] =>
      if ip.isEmpty && fp.isEmpty then none
      else
        match (if ip.isEmpty then some 0 else digitsVal ip),
              (if fp.isEmpty then some 0 else digitsVal fp) with
        | some i, some f =>
          some { mant := sgn * ((i : ℤ) * tenPow fp.length + (f : ℤ)), exp := fp.length }
        | _, _ => none
    | _ => none

/-- Python truthiness of an optional string (`None` and `""` are falsy). -/
def pyTruthy : Option String → Bool
  | none => false
  | some s => !s.isEmpty

/-! ## Intent router (`agent_router.py`) -/

/-- The closed agent-type enumeration of `agent_factory.py`
(declaration order `NEO4J`, `RAG`, `CHAT` matters for the keyword scan). -/
inductive AgentType where
  | neo4j
  | rag
  | chat
deriving DecidableEq, Repr

/-- The string value of each agent type (`AgentType(str, Enum)` values). -/
def AgentType.value : AgentType → String
  | .neo4j => "neo4j"
  | .rag => "rag"
  | .chat => "chat"

/-- Model of the constructor call `AgentType(agent_str)`: succeeds exactly on
one of the three enum values. -/
def agentTypeOf? (s : String) : Option AgentType :=
  if s = "neo4j" then some .neo4j
  else if s = "rag" then some .rag
  else if s = "chat" then some .chat
  else none

/-- The first branch of `detect_intent`'s parsing policy: if the response has
at least two whitespace tokens and the first parses as an agent type and the
second as a float, accept that pair.  (`agent_router.py` lines 72-80.) -/
def firstTwoParse : List String → Option (AgentType × Dec)
  | a :: c :: _ =>
    match agentTypeOf? a, parseDec? c with
    | some t, some q => some (t, q)
    | _, _ => none
  | _ => none

/-- `AgentRouter.detect_intent` (`agent_router.py` lines 36-93), as a function
of the LLM call outcome.  `Except.error e` models the provider raising. -/
def detectIntent (outcome : Except String String) : AgentType × Dec :=
  match outcome with
  | .error _ => (.chat, ⟨0, 0⟩)
  | .ok resp =>
    let intentStr := strLower (strTrim resp)
    match firstTwoParse (pySplitWS intentStr) with
    | some p => p
    | none =>
      -- fallback scan in AgentType declaration order
      if strHas AgentType.neo4j.value intentStr then (.neo4j, ⟨5, 1⟩)
      else if strHas AgentType.rag.value intentStr then (.rag, ⟨5, 1⟩)
      else if strHas AgentType.chat.value intentStr then (.chat, ⟨5, 1⟩)
      else (.chat, ⟨3, 1⟩)

/-- The `_routing` metadata block `AgentRouter.route` attaches to its
result. -/
structure RoutingInfo where
  agentType : AgentType
  autoRouted : Bool
  confidence : Dec
deriving DecidableEq, Repr

/-- `AgentRouter.route` (`agent_router.py` lines 95-144), projected onto its
routing decision.  The second component of the result records whether
`detect_intent` was invoked. -/
def route (forced : Option AgentType) (detectOutcome : Except String String)
    (confidenceThreshold : Dec) : RoutingInfo × Bool :=
  match forced with
  | some t =>
    ({ agentType := t, autoRouted := false, confidence := ⟨1, 0⟩ }, false)
  | none =>
    let d := detectIntent detectOutcome
    if Dec.blt d.2 confidenceThreshold then
      ({ agentType := .chat, autoRouted := false, confidence := d.2 }, true)
    else
      ({ agentType := d.1, autoRouted := true, confidence := d.2 }, true)

/-! ## Base agent: bounded history (`base/base.py` lines 256-343)

`truncate_history` first attempts smart trimming through the external
`trim_messages` helper driven by the LLM's own tokenizer; that call is an
opaque capability here, modelled by the `smart : Except String (List Msg)`
oracle (`Except.error` models `trim_messages` raising).  When it raises, the
code falls back to keeping the last `max_history * 2` messages by count. -/

/-- A role/content message dict as passed to `truncate_history`. -/
structure Msg where
  role : String
  content : String
deriving DecidableEq, Repr

/-- The crude token estimator named by the spec (`len(text) // 4`). -/
def estTokens (m : Msg) : ℕ := m.content.length / 4

/-- Estimated token count of a message list under `estTokens`. -/
def estTokensList (l : List Msg) : ℕ := (l.map estTokens).sum

/-- Python `l[-m:]`.  Note `l[-0:]` is the whole list, not the empty one. -/
def pySliceLast (m : ℕ) (l : List α) : List α :=
  if m = 0 then l else l.drop (l.length - m)

/-- The count-based fallback of `truncate_history`
(`base/base.py` lines 331-343): keep the last `max_history * 2` messages. -/
def truncFallback (maxHistory : ℕ) (history : List Msg) : List Msg :=
  let maxMessages := maxHistory * 2
  if history.length > maxMessages then pySliceLast maxMessages history
  else history

/-- `BaseAgent.truncate_history` (`base/base.py` lines 256-343) as a function
of the smart-trimming outcome. -/
def truncateHistory (smart : Except String (List Msg)) (maxHistory : ℕ)
    (history : List Msg) : List Msg :=
  if history.isEmpty then []
  else
    match smart with
    | .ok trimmed => trimmed
    | .error _ => truncFallback maxHistory history

/-! ## RAG agent (`rag_agent/agent.py`)

Pipeline `think → plan → retrieve → rerank → generate → respond` with no
conditional edges.  LLM, plan-tool and vector-store calls are oracles. -/

/-- A retrieved document (all that matters here is its content). -/
structure RagDoc where
  content : String
deriving DecidableEq, Repr

/-- The slice of `RAGAgentState` read and written by the pipeline nodes. -/
structure RagState where
  thinking : Option String
  plan : Option String
  retrievedDocs : List (RagDoc × Dec)
  rerankedDocs : List (RagDoc × Dec)
  answer : Option String
  contextUsed : ℕ
  retrievalCount : ℕ
  error : Option String
  response : String
deriving DecidableEq, Repr

/-- The initial RAG state: every scratch field at its `state.get` default. -/
def ragInit : RagState :=
  { thinking := none, plan := none, retrievedDocs := [], rerankedDocs := []
    answer := none, contextUsed := 0, retrievalCount := 0, error := none
    response := "" }

/-- `RAGAgent._think_node` (lines 95-110). -/
def ragThinkNode (think : Except String String) (s : RagState) : RagState :=
  match think with
  | .ok t => { s with thinking := some t }
  | .error e => { s with error := some e }

/-- `RAGAgent._plan_node` (lines 112-130). -/
def ragPlanNode (planRes : Except String String) (s : RagState) : RagState :=
  match planRes with
  | .ok p => { s with plan := some p }
  | .error e => { s with error := some e }

/-- `RAGAgent._retrieve_node` (lines 132-157): ranked semantic search. -/
def ragRetrieveNode (search : Except String (List (RagDoc × Dec)))
    (s : RagState) : RagState :=
  match search with
  | .ok docs => { s with retrievedDocs := docs, retrievalCount := docs.length }
  | .error e => { s with error := some e }

/-- The fixed similarity threshold of `_rerank_node` (`score_threshold = 0.7`). -/
def ragScoreThreshold : Dec := ⟨7, 1⟩

/-- `RAGAgent._rerank_node` (lines 159-184): keep exactly the documents whose
score is at or above the threshold. -/
def ragRerankNode (s : RagState) : RagState :=
  let documents := s.retrievedDocs
  if documents.isEmpty then { s with rerankedDocs := [] }
  else
    { s with rerankedDocs :=
        documents.filter (fun p => Dec.ble ragScoreThreshold p.2) }

/-- The documents whose content enters the generation context: the first
three surviving reranked documents (`reranked_docs[:3]`, lines 195-199).  The
rendered context string (with two-decimal score formatting) is elided; the
claims only concern which documents enter it. -/
def ragContextDocs (s : RagState) : List (RagDoc × Dec) :=
  s.rerankedDocs.take 3

/-- `RAGAgent._generate_node` (lines 186-215). -/
def ragGenerateNode (llm : Except String String) (s : RagState) : RagState :=
  match llm with
  | .ok ans =>
    { s with answer := some ans, contextUsed := (ragContextDocs s).length }
  | .error e => { s with error := some e }

/-- `RAGAgent._respond_node` (lines 217-249). -/
def ragRespondNode (s : RagState) : RagState :=
  if pyTruthy s.error then
    { s with response :=
        "I apologize, but I encountered an error: " ++ (s.error.getD "") }
  else
    let answer := s.answer.getD "I couldn\x27t generate an answer."
    let tail :=
      if 0 < s.contextUsed then
        "\n\n_Based on " ++ toString s.contextUsed ++
          " relevant document(s) (retrieved " ++ toString s.retrievalCount ++
          " total)_"
      else
        "\n\n_Note: No relevant documents were found in the knowledge base._"
    { s with response := answer ++ tail, error := none }

/-- One full RAG pipeline run over the fixed linear graph. -/
def ragRun (think planRes : Except String String)
    (search : Except String (List (RagDoc × Dec)))
    (llm : Except String String) : RagState :=
  ragRespondNode (ragGenerateNode llm (ragRerankNode
    (ragRetrieveNode search (ragPlanNode planRes (ragThinkNode think ragInit)))))

/-! ## Neo4j agent (`neo4j_agent/agent.py`)

Graph `get_schema → analyze → generate → validate → (execute | generate) →
execute → evaluate → (generate | respond) → respond → END`.  Each capability
call is an oracle indexed by how many times the calling node has run. -/

/-- Join strings with a separator. -/
def joinWithStr (sep : String) : List String → String
  | [] => ""
  | [t] => t
  | t :: ts => t ++ sep ++ joinWithStr sep ts

/-- `chr(10).join(f"- {x}" for x in items)`. -/
def bulletLines (items : List String) : String :=
  joinWithStr "\n" (items.map (fun e => "- " ++ e))

/-- The validation dict returned by `neo4j_client.validate_query`. -/
structure ValidationRes where
  valid : Bool
  errors : List String
  warnings : List String
  suggestion : Option String
deriving DecidableEq, Repr

/-- The slice of `Neo4jAgentState` read and written by the workflow.  Fields
the code reads through `state.get(key, default)` start at that default
(`error` as the empty string models the `state.get("error", "")` reads;
records returned by `execute_cypher` are opaque strings). -/
structure NeoState where
  query : String
  schema : Option String
  analysis : Option String
  attempt : ℕ
  cypher : String
  validation : Option ValidationRes
  validationPassed : Bool
  results : List String
  executionError : Option String
  shouldRetry : Bool
  evaluation : String
  error : String
  skipRetry : Bool
  response : String
deriving DecidableEq, Repr

/-- `validation.get("valid", False)` on the current state. -/
def NeoState.validationValid (s : NeoState) : Bool :=
  (s.validation.map (fun v => v.valid)).getD false

/-- `validation.get("errors", [])` on the current state. -/
def NeoState.validationErrors (s : NeoState) : List String :=
  (s.validation.map (fun v => v.errors)).getD []

/-- `validation.get("warnings", [])` on the current state. -/
def NeoState.validationWarnings (s : NeoState) : List String :=
  (s.validation.map (fun v => v.warnings)).getD []

/-- `validation.get("suggestion", "Please rephrase your question")`. -/
def NeoState.suggestionText (s : NeoState) : String :=
  ((s.validation.bind (fun v => v.suggestion)).getD "Please rephrase your question")

/-- The initial Neo4j state of one run: only the query is set. -/
def neoInitState (query : String) : NeoState :=
  { query := query, schema := none, analysis := none, attempt := 0
    cypher := "", validation := none, validationPassed := false, results := []
    executionError := none, shouldRetry := false, evaluation := "", error := ""
    skipRetry := false, response := "" }

/-- Capability outcomes for one run; per-node call counters index the
oracles (`Except.error e` models the call raising with message `e`). -/
structure NeoOracle where
  schemaRes : Except String String
  analyzeRes : Except String String
  genRes : ℕ → Except String String
  valRes : ℕ → Except String ValidationRes
  execRes : ℕ → Except String (List String)
  evalRes : ℕ → Except String String

/-- `Neo4jAgent._get_schema_node` (lines 113-127): fetch schema, reset the
attempt counter to 0. -/
def neoGetSchemaNode (o : NeoOracle) (s : NeoState) : NeoState :=
  match o.schemaRes with
  | .ok sch => { s with schema := some sch, attempt := 0 }
  | .error e => { s with error := e }

/-- `Neo4jAgent._analyze_node` (lines 129-142). -/
def neoAnalyzeNode (o : NeoOracle) (s : NeoState) : NeoState :=
  match o.analyzeRes with
  | .ok a => { s with analysis := some a }
  | .error e => { s with error := e }

/-- `Neo4jAgent._extract_cypher` (lines 192-204): strip, unwrap one fenced
code block when present, strip again. -/
def extractCypher (resp : String) : String :=
  let content := strTrim resp
  let content :=
    if strStarts content "```" then
      let lines := splitOnChar '\n' content.data
      if lines.length > 2 then ⟨joinWith ['\n'] (lines.drop 1).dropLast⟩
      else content
    else content
  strTrim content

/-- The rate-limit detection of `_generate_node` (line 177). -/
def rateLimitHit (msg : String) : Bool :=
  strHas "rate limit" (strLower msg) || strHas "429" msg

/-- The user-facing rate-limit error set by `_generate_node`. -/
def neoRateLimitUserError : String :=
  "⚠️ API rate limit exceeded. Please wait a moment and try again."

/-- `Neo4jAgent._generate_node` (lines 144-190): every branch, including the
exception branches, increments the attempt counter by one. -/
def neoGenerateNode (o : NeoOracle) (k : ℕ) (s : NeoState) : NeoState :=
  match o.genRes k with
  | .ok resp => { s with cypher := extractCypher resp, attempt := s.attempt + 1 }
  | .error msg =>
    if rateLimitHit msg then
      { s with cypher := "", attempt := s.attempt + 1
               error := neoRateLimitUserError, skipRetry := true }
    else
      { s with cypher := "", attempt := s.attempt + 1, error := msg }

/-- `Neo4jAgent._validate_node` (lines 206-237): on a validator exception,
fail open (treat the query as valid, record a warning). -/
def neoValidateNode (o : NeoOracle) (k : ℕ) (s : NeoState) : NeoState :=
  match o.valRes k with
  | .ok v => { s with validation := some v, validationPassed := v.valid }
  | .error e =>
    { s with
      validation := some { valid := true, errors := []
                           warnings := ["Validation check failed: " ++ e]
                           suggestion := none }
      validationPassed := true }

/-- `Neo4jAgent._execute_node` (lines 239-260): execution errors are data,
not control flow. -/
def neoExecuteNode (o : NeoOracle) (k : ℕ) (s : NeoState) : NeoState :=
  match o.execRes k with
  | .ok rs => { s with results := rs, executionError := none }
  | .error e => { s with results := [], executionError := some e }

/-- `Neo4jAgent._evaluate_node` (lines 262-334). -/
def neoEvaluateNode (o : NeoOracle) (k : ℕ) (s : NeoState) : NeoState :=
  if !s.error.isEmpty || s.skipRetry then
    { s with shouldRetry := false, evaluation := "SKIP: Error exists" }
  else if !s.validationErrors.isEmpty then
    { s with shouldRetry := true
             evaluation := "RETRY: Validation errors - " ++
               joinWithStr ", " s.validationErrors }
  else
    match o.evalRes k with
    | .ok resp =>
      let evaluation := strUpper (strTrim resp)
      { s with shouldRetry := strStarts evaluation "RETRY"
               evaluation := evaluation }
    | .error e => { s with shouldRetry := false, evaluation := "ERROR: " ++ e }

/-- The validation-failure response template of `_respond_node`
(lines 351-369). -/
def neoValidationFailureResponse (validationErrors : List String)
    (suggestion cypher : String) : String :=
  "I apologize, but I couldn\x27t generate a valid Cypher query.\n\n**Validation Errors:**\n"
    ++ bulletLines validationErrors
    ++ "\n\n**Suggestion:** " ++ suggestion
    ++ "\n\n**Last attempted query:**\n```cypher\n" ++ cypher
    ++ "\n```\n\nPlease try rephrasing your question or provide more specific details."

/-- The execution-error response template of `_respond_node`
(lines 371-392): note it interpolates the raw `execution_error`. -/
def neoExecErrorResponse (executionError evaluation cypher : String)
    (warnings : List String) : String :=
  "I apologize, but I couldn\x27t execute the query successfully.\n\n**Error:** "
    ++ executionError
    ++ "\n\n**Evaluation:** " ++ evaluation
    ++ "\n\n**Query attempted:**\n```cypher\n" ++ cypher ++ "\n```\n"
    ++ (if warnings.isEmpty then ""
        else "\n**Validation Warnings:**\n" ++ bulletLines warnings)
    ++ "\n\nPlease try rephrasing your question or provide more details."

/-- Model of the Python `repr` of the opaque record list in the success
template (`{results[:5]}`). -/
def renderRecords (rs : List String) : String :=
  "[" ++ joinWithStr ", " rs ++ "]"

/-- The success response template of `_respond_node` (lines 394-408). -/
def neoSuccessResponse (attempt maxRetries : ℕ) (cypher : String)
    (results : List String) (warnings : List String) : String :=
  joinWithStr "\n"
    (["✅ Query executed successfully (attempt " ++ toString attempt ++ "/" ++
        toString maxRetries ++ ")",
      "\n**Cypher Query:**\n```cypher\n" ++ cypher ++ "\n```",
      "\n**Results:** " ++ toString results.length ++ " record(s) found"]
     ++ (if warnings.isEmpty then []
         else ["\n**Validation Warnings:**\n" ++ bulletLines warnings])
     ++ (if results.isEmpty then []
         else ["\n**Sample Results:**\n```json\n" ++
                 renderRecords (results.take 5) ++ "\n```"]))

/-- `Neo4jAgent._respond_node` (lines 336-420).  The formatting body is pure
here, so its outer `except` branch is unreachable in the model. -/
def neoRespondNode (maxRetries : ℕ) (s : NeoState) : NeoState :=
  if !s.validationErrors.isEmpty then
    { s with
      response := neoValidationFailureResponse s.validationErrors
        s.suggestionText s.cypher
      error := "Validation failed" }
  else if pyTruthy s.executionError && s.results.isEmpty then
    { s with
      response := neoExecErrorResponse (s.executionError.getD "")
        s.evaluation s.cypher s.validationWarnings
      error := s.executionError.getD "" }
  else
    { s with
      response := neoSuccessResponse s.attempt maxRetries s.cypher s.results
        s.validationWarnings
      error := "" }

/-- Outcome of `_should_retry_after_validation` (lines 85-102).  The string
`"retry"` routes back to `generate`, `"execute"` routes on. -/
inductive ValidationRoute where
  | toExecute
  | toRetry
deriving DecidableEq, Repr

/-- `Neo4jAgent._should_retry_after_validation` (lines 85-102). -/
def shouldRetryAfterValidation (maxRetries : ℕ) (s : NeoState) :
    ValidationRoute :=
  if s.skipRetry || !s.error.isEmpty then .toExecute
  else if !s.validationValid && decide (s.attempt < maxRetries) then .toRetry
  else .toExecute

/-- Outcome of `_should_retry_after_evaluation` (lines 104-111). -/
inductive EvalRoute where
  | toRetry
  | toRespond
deriving DecidableEq, Repr

/-- `Neo4jAgent._should_retry_after_evaluation` (lines 104-111). -/
def shouldRetryAfterEvaluation (maxRetries : ℕ) (s : NeoState) : EvalRoute :=
  if s.shouldRetry && decide (s.attempt < maxRetries) then .toRetry
  else .toRespond

/-- The named workflow steps of the compiled graph (`done` = `END`). -/
inductive NeoNode where
  | getSchema
  | analyze
  | generate
  | validate
  | execRun
  | evaluate
  | respond
  | done
deriving DecidableEq, Repr

/-- One point of a workflow run: current node, state, and how many times
each oracle-backed node has run (`genCalls` counts `generate` invocations). -/
structure NeoCfg where
  node : NeoNode
  st : NeoState
  genCalls : ℕ
  valCalls : ℕ
  execCalls : ℕ
  evalCalls : ℕ
deriving DecidableEq, Repr

/-- One step of the compiled workflow: run the current node on the state,
then follow the (conditional) edge computed on the updated state.  `done`
is absorbing. -/
def neoStep (maxRetries : ℕ) (o : NeoOracle) (c : NeoCfg) : NeoCfg :=
  match c.node with
  | .getSchema => { c with st := neoGetSchemaNode o c.st, node := .analyze }
  | .analyze => { c with st := neoAnalyzeNode o c.st, node := .generate }
  | .generate =>
    { c with st := neoGenerateNode o c.genCalls c.st
             genCalls := c.genCalls + 1, node := .validate }
  | .validate =>
    let s := neoValidateNode o c.valCalls c.st
    { c with st := s, valCalls := c.valCalls + 1
             node := match shouldRetryAfterValidation maxRetries s with
                     | .toRetry => .generate
                     | .toExecute => .execRun }
  | .execRun =>
    { c with st := neoExecuteNode o c.execCalls c.st
             execCalls := c.execCalls + 1, node := .evaluate }
  | .evaluate =>
    let s := neoEvaluateNode o c.evalCalls c.st
    { c with st := s, evalCalls := c.evalCalls + 1
             node := match shouldRetryAfterEvaluation maxRetries s with
                     | .toRetry => .generate
                     | .toRespond => .respond }
  | .respond => { c with st := neoRespondNode maxRetries c.st, node := .done }
  | .done => c

/-- The entry configuration of one Neo4j workflow run. -/
def neoInit (query : String) : NeoCfg :=
  { node := .getSchema, st := neoInitState query
    genCalls := 0, valCalls := 0, execCalls := 0, evalCalls := 0 }

/-! ## Streaming and per-call configuration (`base/base.py` lines 103-182,
345-481) -/

/-- Conversion of one history dict to a LangChain message in
`execute_stream` (lines 412-415): roles other than user/assistant are
dropped. -/
def convHistoryEntry (m : Msg) : Option Msg :=
  if m.role = "user" then some ⟨"user", m.content⟩
  else if m.role = "assistant" then some ⟨"assistant", m.content⟩
  else none

/-- One full conversion pass over the history. -/
def convHistory (history : List Msg) : List Msg :=
  history.filterMap convHistoryEntry

/-- The message list `execute_stream` actually assembles (lines 405-418).
The loop over the history is nested (`for msg in (history or []): for msg in
history: ...`), so one full conversion pass is appended once per history
element. -/
def assembleStreamMessages (systemPrompt : Option String) (history : List Msg)
    (query : String) : List Msg :=
  (match systemPrompt with
   | some sp => if sp.isEmpty then [] else [⟨"system", sp⟩]
   | none => [])
  ++ (List.replicate history.length (convHistory history)).flatten
  ++ [⟨"user", query⟩]

/-- The message assembly as the spec describes it for both `execute` and
`execute_stream`: optional system prompt first, then each history message
exactly once in original order, then the new user message.  (Spec-side
definition, for the refinement comparison only.) -/
def assembleMessagesSpec (systemPrompt : Option String) (history : List Msg)
    (query : String) : List Msg :=
  (match systemPrompt with
   | some sp => if sp.isEmpty then [] else [⟨"system", sp⟩]
   | none => [])
  ++ convHistory history
  ++ [⟨"user", query⟩]

/-- The per-call graph configuration built by `_build_graph_config`
(lines 103-182).  The Langfuse callback handler object is opaque; only its
presence is modelled (`langfuseInstalled` models the `import` succeeding). -/
structure GraphConfig where
  recursionLimit : ℕ
  threadId : Option String
  agentTypeMeta : String
  environmentMeta : String
  extraMeta : List (String × String)
  userIdMeta : Option ℕ
  sessionIdMeta : Option String
  hasCallbacks : Bool
deriving DecidableEq, Repr

/-- Python truthiness filter on an optional string (`if session_id:`). -/
def optTruthyStr : Option String → Option String
  | some s => if s.isEmpty then none else some s
  | none => none

/-- Python truthiness filter on an optional int (`if user_id:`, `0` falsy). -/
def optTruthyNat : Option ℕ → Option ℕ
  | some n => if n = 0 then none else some n
  | none => none

/-- `BaseAgent._build_graph_config` (lines 103-182). -/
def buildGraphConfig (agentType env : String)
    (langfuseEnabled langfuseInstalled : Bool) (sessionId : Option String)
    (userId : Option ℕ) (metadata : List (String × String)) : GraphConfig :=
  { recursionLimit := 100
    threadId := optTruthyStr sessionId
    agentTypeMeta := agentType
    environmentMeta := env
    extraMeta := metadata
    userIdMeta := optTruthyNat userId
    sessionIdMeta := optTruthyStr sessionId
    hasCallbacks := langfuseEnabled && langfuseInstalled }

/-- The `_build_graph_config(session_id=…, user_id=…, metadata=…)` call made
by `execute` (lines 367-371). -/
def executeCallConfig (agentType env : String) (lfOn lfInst : Bool)
    (sessionId : Option String) (userId : Option ℕ)
    (metadata : List (String × String)) : GraphConfig :=
  buildGraphConfig agentType env lfOn lfInst sessionId userId metadata

/-- The `_build_graph_config(session_id=…, user_id=…, metadata=…)` call made
by `execute_stream` (lines 428-432). -/
def executeStreamCallConfig (agentType env : String) (lfOn lfInst : Bool)
    (sessionId : Option String) (userId : Option ℕ)
    (metadata : List (String × String)) : GraphConfig :=
  buildGraphConfig agentType env lfOn lfInst sessionId userId metadata

/-- One event of the `astream(..., stream_mode="messages")` iteration.
`broken` models an event whose per-token handling raises. -/
inductive StreamEvent where
  | msg (content : Option String)
  | broken
deriving DecidableEq, Repr

/-- The body of the token loop of `execute_stream` (lines 448-466): extract
the message, yield its content when truthy; any exception is caught, logged
and skipped. -/
def handleToken : StreamEvent → Option String
  | .msg (some c) => if c.isEmpty then none else some c
  | .msg none => none
  | .broken => none

/-- The sequence of chunks `execute_stream` yields for a run whose event
stream is `events`. -/
def processStream : List StreamEvent → List String
  | [] => []
  | e :: rest =>
    match handleToken e with
    | some c => c :: processStream rest
    | none => processStream rest

/-! ## Workflow-state message reducer (`base/state.py` lines 11-35) -/

/-- A message carrying the identity key the reducer deduplicates by. -/
structure IdMsg where
  id : ℕ
  content : String
deriving DecidableEq, Repr

/-- Modelled from the spec: the `add_messages` reducer annotated on
`BaseAgentState.messages` in `base/state.py` is supplied by the external
langgraph library, whose implementation is not part of this repository.
Per the spec, the merge is additive and deduplicating by message identity:
new messages are appended in order, and a later duplicate of an
already-applied message is dropped. -/
def addMessages (left right : List IdMsg) : List IdMsg :=
  right.foldl
    (fun acc m => if acc.any (fun x => x.id == m.id) then acc else acc ++ [m])
    left

/-! ## Session history readback (`base/base.py` lines 555-596) -/

/-- The application environments of `config/settings.py`. -/
inductive Environment where
  | development
  | test
  | staging
  | production
deriving DecidableEq, Repr

/-- The kind of a checkpointed LangChain message (`msg.type`). -/
inductive MsgKind where
  | human
  | ai
  | system
  | tool
deriving DecidableEq, Repr

/-- A checkpointed message as stored in the snapshot's `messages` list. -/
structure LcMsg where
  kind : MsgKind
  content : String
deriving DecidableEq, Repr

/-- The projection loop of `get_session_history` (lines 580-586): keep only
human/ai messages, as user/assistant role-content dicts, in stored order. -/
def projectHistory (msgs : List LcMsg) : List Msg :=
  msgs.filterMap fun m =>
    match m.kind with
    | .human => some ⟨"user", m.content⟩
    | .ai => some ⟨"assistant", m.content⟩
    | _ => none

/-- The lazy graph build entered from `get_session_history`
(`_build_graph_async` + `_get_connection_pool`, lines 50-101 and 184-239):
returns whether a checkpointer is attached.  A pool-acquisition failure is
swallowed (checkpointing disabled) only in production; in every other
environment it propagates. -/
def buildCheckpointer (env : Environment) (pool : Except String Unit) :
    Except String Bool :=
  match pool with
  | .ok _ => .ok true
  | .error e => if env = .production then .ok false else .error e

/-- `BaseAgent.get_session_history` (lines 555-596) as a function of the
build status, environment and capability outcomes.  `snapshot` models
`graph.get_state`: `Except.error` a raising read, `.ok none` an empty
snapshot (`not state_snapshot.values`), `.ok (some msgs)` a snapshot whose
state holds `msgs`. -/
def getSessionHistory (graphBuilt : Bool) (checkpointerWhenBuilt : Bool)
    (env : Environment) (pool : Except String Unit)
    (snapshot : Except String (Option (List LcMsg))) :
    Except String (List Msg) :=
  match (if graphBuilt then Except.ok checkpointerWhenBuilt
         else buildCheckpointer env pool) with
  | .error e => .error e
  | .ok false => .ok []
  | .ok true =>
    match snapshot with
    | .error _ => .ok []
    | .ok none => .ok []
    | .ok (some msgs) => .ok (projectHistory msgs)

end Vpaura

namespace Vpaura

/-! ### Router theorems -/

/-- C9: forced routing never consults the classifier and reports
`confidence = 1.0`, `auto_routed = false`. -/
theorem router_forced_type_passthrough
    (t : AgentType) (o : Except String String) (th : Dec) :
    route (some t) o th =
      ({ agentType := t, autoRouted := false, confidence := ⟨1, 0⟩ }, false) := rfl

/-- C2: whenever detection confidence is strictly below the threshold,
`route` selects the Chat agent, records `auto_routed = false`, and keeps the
detected confidence, regardless of the detected type. -/
theorem router_low_confidence_fallback
    (o : Except String String) (th : Dec)
    (h : Dec.blt (detectIntent o).2 th = true) :
    route none o th =
      ({ agentType := .chat, autoRouted := false,
         confidence := (detectIntent o).2 }, true) := by
  unfold route
  simp [h]

/-- Witness for `router_low_confidence_fallback`: the spec's example 2, a
classifier answer `"neo4j 0.4"` against the default threshold `0.6`. -/
theorem router_low_confidence_fallback_witness :
    Dec.blt (detectIntent (Except.ok "neo4j 0.4")).2 ⟨6, 1⟩ = true ∧
    route none (Except.ok "neo4j 0.4") ⟨6, 1⟩ =
      ({ agentType := .chat, autoRouted := false, confidence := ⟨4, 1⟩ }, true) := by
  refine ⟨by decide, ?_⟩
  have h : Dec.blt (detectIntent (Except.ok "neo4j 0.4")).2 ⟨6, 1⟩ = true := by decide
  have hr := router_low_confidence_fallback (Except.ok "neo4j 0.4") ⟨6, 1⟩ h
  rw [hr]
  decide

/-! ### Classifier result theorems (C6) -/

/-- C6 counterexample: the two-token parse path does not validate the parsed
confidence, so the classifier response `"chat 1.5"` yields confidence `1.5`,
outside `[0, 1]`. -/
theorem detect_intent_confidence_range_cex :
    (detectIntent (Except.ok "chat 1.5")).2 = ⟨15, 1⟩ ∧
    ¬ (detectIntent (Except.ok "chat 1.5")).2.toRat ≤ 1 := by
  refine ⟨by decide, ?_⟩
  have h : (detectIntent (Except.ok "chat 1.5")).2 = ⟨15, 1⟩ := by decide
  rw [h]
  norm_num [Dec.toRat, tenPow]

/-- C6 amended: `detect_intent` always returns a type of the closed
enumeration and never propagates a provider failure (a failure yields exactly
`(Chat, 0.0)`); on the keyword-fallback and default paths the confidence is
`0.5` or `0.3`, both within `[0, 1]`; but on the two-token parse path the
confidence is the parsed value, unvalidated. -/
theorem detect_intent_amended :
    (∀ e, detectIntent (Except.error e) = (AgentType.chat, ⟨0, 0⟩)) ∧
    (∀ s t c, firstTwoParse (pySplitWS (strLower (strTrim s))) = some (t, c) →
      detectIntent (Except.ok s) = (t, c)) ∧
    (∀ s, firstTwoParse (pySplitWS (strLower (strTrim s))) = none →
      ((detectIntent (Except.ok s)).2 = ⟨5, 1⟩ ∨
        (detectIntent (Except.ok s)).2 = ⟨3, 1⟩) ∧
      0 ≤ (detectIntent (Except.ok s)).2.toRat ∧
      (detectIntent (Except.ok s)).2.toRat ≤ 1) := by
  refine ⟨fun e => rfl, ?_, ?_⟩
  · intro s t c h
    unfold detectIntent
    simp [h]
  · intro s h
    have hval : (detectIntent (Except.ok s)).2 = ⟨5, 1⟩ ∨
        (detectIntent (Except.ok s)).2 = ⟨3, 1⟩ := by
      unfold detectIntent
      simp only [h]
      split_ifs <;> simp
    refine ⟨hval, ?_, ?_⟩ <;>
      rcases hval with hv | hv <;> rw [hv] <;> norm_num [Dec.toRat, tenPow]

/-- Witness for `detect_intent_amended` at concrete inputs of each path. -/
theorem detect_intent_amended_witness :
    detectIntent (Except.error "timeout") = (AgentType.chat, ⟨0, 0⟩) ∧
    detectIntent (Except.ok "NEO4J 0.95") = (AgentType.neo4j, ⟨95, 2⟩) ∧
    ((detectIntent (Except.ok "gibberish")).2 = ⟨5, 1⟩ ∨
      (detectIntent (Except.ok "gibberish")).2 = ⟨3, 1⟩) :=
  ⟨detect_intent_amended.1 "timeout",
   detect_intent_amended.2.1 "NEO4J 0.95" AgentType.neo4j ⟨95, 2⟩ (by decide),
   (detect_intent_amended.2.2 "gibberish" (by decide)).1⟩

/-! ### History truncation theorems (C3) -/

/-- C3 counterexample: the count-based fallback of the governing
`truncate_history` applies no token bound at all.  With `max_history = 1`,
`max_tokens = 1` and three messages of eight characters each, it keeps two
messages whose estimated token count (`len // 4` each) is `4 > 1`. -/
theorem truncate_history_token_bound_cex :
    ([(⟨"user", "aaaaaaaa"⟩ : Msg), ⟨"assistant", "aaaaaaaa"⟩,
        ⟨"user", "aaaaaaaa"⟩].length > 1 * 2) ∧
    estTokensList (truncateHistory (Except.error "trim failed") 1
      [⟨"user", "aaaaaaaa"⟩, ⟨"assistant", "aaaaaaaa"⟩,
        ⟨"user", "aaaaaaaa"⟩]) = 4 ∧
    ¬ estTokensList (truncateHistory (Except.error "trim failed") 1
      [⟨"user", "aaaaaaaa"⟩, ⟨"assistant", "aaaaaaaa"⟩,
        ⟨"user", "aaaaaaaa"⟩]) ≤ 1 := by
  decide

/-- C3 amended: when smart trimming raises, the fallback keeps exactly the
last `max_history * 2` messages by count (for positive `max_history`): the
output is the final segment of the input, so it has at most
`max_history * 2` messages in original order with each retained exactly
once — but no token-count bound and no system-message preference apply. -/
theorem truncate_history_fallback_amended (e : String) (mh : ℕ)
    (h : List Msg) (hmh : 0 < mh) (hl : h.length > mh * 2) :
    truncateHistory (Except.error e) mh h = h.drop (h.length - mh * 2) ∧
    (truncateHistory (Except.error e) mh h).length = mh * 2 ∧
    h.take (h.length - mh * 2) ++ truncateHistory (Except.error e) mh h = h := by
  have hne : h.isEmpty = false := by
    cases h with
    | nil => simp at hl
    | cons a t => rfl
  have hmm : ¬ mh * 2 = 0 := by omega
  have h1 : truncateHistory (Except.error e) mh h =
      h.drop (h.length - mh * 2) := by
    unfold truncateHistory truncFallback pySliceLast
    simp [hne, hl, hmm]
  refine ⟨h1, ?_, ?_⟩
  · rw [h1, List.length_drop]
    omega
  · rw [h1, List.take_append_drop]

/-- Witness for `truncate_history_fallback_amended`: five messages with
`max_history = 1` keep exactly the last two. -/
theorem truncate_history_fallback_amended_witness :
    truncateHistory (Except.error "x") 1
      [⟨"user", "a"⟩, ⟨"assistant", "b"⟩, ⟨"user", "c"⟩,
        ⟨"assistant", "d"⟩, ⟨"user", "e"⟩] =
      [⟨"assistant", "d"⟩, ⟨"user", "e"⟩] := by
  have := truncate_history_fallback_amended "x" 1
    [⟨"user", "a"⟩, ⟨"assistant", "b"⟩, ⟨"user", "c"⟩,
      ⟨"assistant", "d"⟩, ⟨"user", "e"⟩] (by decide) (by decide)
  rw [this.1]
  decide

/-! ### Substring helper lemmas -/

lemma strData_append (a b : String) : (a ++ b).data = a.data ++ b.data := rfl

lemma matchesAt_self_append (n rest : List Char) :
    matchesAt n (n ++ rest) = true := by
  induction n with
  | nil => rfl
  | cons c cs ih => simp [matchesAt, ih]

lemma hasRun_self_append (n rest : List Char) : hasRun n (n ++ rest) = true := by
  cases n with
  | nil =>
    cases rest with
    | nil => rfl
    | cons c cs => simp [hasRun, matchesAt]
  | cons c cs =>
    show (matchesAt (c :: cs) ((c :: cs) ++ rest) ||
      hasRun (c :: cs) (cs ++ rest)) = true
    rw [matchesAt_self_append]
    rfl

lemma hasRun_append_left (n pre post : List Char)
    (h : hasRun n post = true) : hasRun n (pre ++ post) = true := by
  induction pre with
  | nil => simpa using h
  | cons c cs ih => simp [hasRun, ih]

lemma hasRun_self (n : List Char) : hasRun n n = true := by
  simpa using hasRun_self_append n []

lemma strHas_append_self (pre n : String) : strHas n (pre ++ n) = true := by
  unfold strHas
  rw [strData_append]
  exact hasRun_append_left _ _ _ (hasRun_self _)

/-! ### RAG rerank / footer theorems (C7) -/

/-- C7: `rerank` keeps exactly the retrieved pairs scoring at or above the
`0.7` threshold (in order); `generate` builds its context from at most the
first three survivors; an error-free `respond` appends either the
used-versus-retrieved footer or the no-relevant-documents notice; and on the
spec's scenario (scores `0.9, 0.75, 0.72, 0.5, 0.3`) exactly three documents
survive and the footer reports 3 used of 5 retrieved. -/
theorem rag_rerank_pipeline :
    (∀ s : RagState, (ragRerankNode s).rerankedDocs =
        s.retrievedDocs.filter (fun p => Dec.ble ragScoreThreshold p.2)) ∧
    (∀ (ans : String) (s : RagState),
      (ragGenerateNode (Except.ok ans) s).contextUsed =
        min 3 s.rerankedDocs.length ∧
      ragContextDocs s = s.rerankedDocs.take 3) ∧
    (∀ s : RagState, s.error = none →
      (ragRespondNode s).response =
        (s.answer.getD "I couldn\x27t generate an answer.") ++
          (if 0 < s.contextUsed then
            "\n\n_Based on " ++ toString s.contextUsed ++
              " relevant document(s) (retrieved " ++
              toString s.retrievalCount ++ " total)_"
          else
            "\n\n_Note: No relevant documents were found in the knowledge base._")) ∧
    ((ragRun (Except.ok "t") (Except.ok "p")
        (Except.ok [(⟨"d1"⟩, ⟨9, 1⟩), (⟨"d2"⟩, ⟨75, 2⟩), (⟨"d3"⟩, ⟨72, 2⟩),
          (⟨"d4"⟩, ⟨5, 1⟩), (⟨"d5"⟩, ⟨3, 1⟩)])
        (Except.ok "Answer")).contextUsed = 3 ∧
      (ragRun (Except.ok "t") (Except.ok "p")
        (Except.ok [(⟨"d1"⟩, ⟨9, 1⟩), (⟨"d2"⟩, ⟨75, 2⟩), (⟨"d3"⟩, ⟨72, 2⟩),
          (⟨"d4"⟩, ⟨5, 1⟩), (⟨"d5"⟩, ⟨3, 1⟩)])
        (Except.ok "Answer")).response =
        "Answer\n\n_Based on 3 relevant document(s) (retrieved 5 total)_") := by
  refine ⟨?_, ?_, ?_, by decide, by decide⟩
  · intro s
    unfold ragRerankNode
    cases hd : s.retrievedDocs with
    | nil => simp [hd]
    | cons a t => simp [hd]
  · intro ans s
    unfold ragGenerateNode ragContextDocs
    simp [List.length_take]
  · intro s h
    unfold ragRespondNode
    simp [h, pyTruthy]

/-- Witness for `rag_rerank_pipeline` (its third conjunct has an error-free
hypothesis): a concrete error-free respond call. -/
theorem rag_rerank_pipeline_witness :
    (ragRespondNode
        { ragInit with
          answer := some "A"
          contextUsed := 2
          retrievalCount := 4 }).response =
      "A\n\n_Based on 2 relevant document(s) (retrieved 4 total)_" := by
  have := rag_rerank_pipeline.2.2.1
    { ragInit with answer := some "A", contextUsed := 2, retrievalCount := 4 }
    rfl
  rw [this]
  decide

/-! ### Raw-error echo theorems (C4) -/

/-- C4 counterexample: a RAG run whose think step raises `"boom"` produces a
user-facing response that contains the raw exception text verbatim. -/
theorem respond_raw_error_cex :
    (ragRun (Except.error "boom") (Except.ok "p") (Except.ok [])
        (Except.ok "a")).response =
      "I apologize, but I encountered an error: boom" ∧
    strHas "boom" (ragRun (Except.error "boom") (Except.ok "p")
      (Except.ok []) (Except.ok "a")).response = true := by
  decide

/-- C4 amended: both respond nodes do produce a formatted apologetic message
on their failure paths, but the raw error text is embedded in that
user-facing message (as well as logged), not withheld from it: the RAG
respond node appends the state's error to its apology, and the Neo4j respond
node interpolates the raw `execution_error` into its error template. -/
theorem respond_error_embedding_amended :
    (∀ s : RagState, pyTruthy s.error = true →
      (ragRespondNode s).response =
        "I apologize, but I encountered an error: " ++ s.error.getD "" ∧
      strHas (s.error.getD "") (ragRespondNode s).response = true) ∧
    (∀ (m : ℕ) (s : NeoState) (err : String),
      s.validationErrors = [] → s.executionError = some err →
      s.results = [] → err ≠ "" →
      (neoRespondNode m s).response =
        neoExecErrorResponse err s.evaluation s.cypher s.validationWarnings ∧
      strHas err (neoRespondNode m s).response = true) := by
  constructor
  · intro s h
    have hresp : (ragRespondNode s).response =
        "I apologize, but I encountered an error: " ++ s.error.getD "" := by
      unfold ragRespondNode
      simp [h]
    refine ⟨hresp, ?_⟩
    rw [hresp]
    exact strHas_append_self _ _
  · intro m s err hv hx hr herr
    have hempty : err.isEmpty = false := by
      cases he : err.isEmpty
      · rfl
      · exact absurd ((String.isEmpty_iff err).mp he) herr
    have hresp : (neoRespondNode m s).response =
        neoExecErrorResponse err s.evaluation s.cypher s.validationWarnings := by
      unfold neoRespondNode
      simp [hv, hx, hr, pyTruthy, hempty]
    refine ⟨hresp, ?_⟩
    rw [hresp]
    unfold neoExecErrorResponse strHas
    simp only [strData_append, List.append_assoc]
    exact hasRun_append_left _ _ _ (hasRun_self_append _ _)

/-! ### Streaming refinement theorems (C5) -/

lemma length_flatten_replicate (n : ℕ) (l : List α) :
    (List.replicate n l).flatten.length = n * l.length := by
  induction n with
  | zero => simp
  | succ k ih =>
    simp [List.replicate_succ, ih, Nat.succ_mul]
    omega

/-- C5 counterexample: on a two-message history, `execute_stream` assembles
five messages — every history message appears twice (once per history
element, the nested-loop slip) — instead of the three messages of the
spec-described assembly. -/
theorem execute_stream_assembly_cex :
    assembleStreamMessages none [⟨"user", "a"⟩, ⟨"assistant", "b"⟩] "q" ≠
      assembleMessagesSpec none [⟨"user", "a"⟩, ⟨"assistant", "b"⟩] "q" ∧
    assembleStreamMessages none [⟨"user", "a"⟩, ⟨"assistant", "b"⟩] "q" =
      [⟨"user", "a"⟩, ⟨"assistant", "b"⟩, ⟨"user", "a"⟩, ⟨"assistant", "b"⟩,
        ⟨"user", "q"⟩] := by
  decide

/-- C5 amended: `execute_stream` builds its per-call graph configuration
exactly as `execute` does, and an exception while handling one streamed
token removes only that token, never the rest of the stream; but the
message lists differ from the spec's description: `execute` passes the query
and truncated history in its initial state without assembling a message
list, and `execute_stream`'s own assembly — optional system prompt first,
new user message last — appends one full conversion pass of the history per
history element (so it agrees with the spec's assembly exactly on histories
of at most one message, and grows by `len(history)` copies otherwise). -/
theorem execute_stream_amended :
    (∀ agTy env lfOn lfInst sid uid md,
      executeStreamCallConfig agTy env lfOn lfInst sid uid md =
        executeCallConfig agTy env lfOn lfInst sid uid md) ∧
    (∀ (sp : Option String) (m : Msg) (q : String),
      assembleStreamMessages sp [m] q = assembleMessagesSpec sp [m] q) ∧
    (∀ (sp : Option String) (h : List Msg) (q : String),
      (assembleStreamMessages sp h q).length =
        (assembleStreamMessages sp [] q).length +
          h.length * (convHistory h).length) ∧
    (∀ pre post : List StreamEvent,
      processStream (pre ++ StreamEvent.broken :: post) =
        processStream (pre ++ post)) := by
  refine ⟨fun _ _ _ _ _ _ _ => rfl, ?_, ?_, ?_⟩
  · intro sp m q
    unfold assembleStreamMessages assembleMessagesSpec
    simp
  · intro sp h q
    unfold assembleStreamMessages
    simp [length_flatten_replicate, convHistory]
    omega
  · intro pre post
    induction pre with
    | nil => rfl
    | cons e es ih =>
      show processStream (e :: (es ++ StreamEvent.broken :: post)) =
        processStream (e :: (es ++ post))
      unfold processStream
      cases handleToken e <;> simp [ih]

/-! ### Message-reducer theorems (C8) -/

lemma addMessages_cons (l : List IdMsg) (m : IdMsg) (r : List IdMsg) :
    addMessages l (m :: r) =
      addMessages (if l.any (fun x => x.id == m.id) then l else l ++ [m]) r :=
  rfl

lemma any_addMessages_of_any (p : IdMsg → Bool) (r l : List IdMsg)
    (h : l.any p = true) : (addMessages l r).any p = true := by
  induction r generalizing l with
  | nil => simpa [addMessages] using h
  | cons m rs ih =>
    rw [addMessages_cons]
    split
    · exact ih l h
    · exact ih _ (by simp [h])

lemma id_mem_addMessages (l r : List IdMsg) (m : IdMsg) (h : m ∈ r) :
    (addMessages l r).any (fun x => x.id == m.id) = true := by
  induction r generalizing l with
  | nil => cases h
  | cons m0 rs ih =>
    rw [addMessages_cons]
    rcases List.mem_cons.mp h with rfl | hmem
    · apply any_addMessages_of_any
      split
      case isTrue hc => exact hc
      case isFalse => simp
    · exact ih _ hmem

lemma addMessages_of_all_present (l r : List IdMsg)
    (h : ∀ m ∈ r, l.any (fun x => x.id == m.id) = true) :
    addMessages l r = l := by
  induction r generalizing l with
  | nil => rfl
  | cons m rs ih =>
    rw [addMessages_cons, if_pos (h m (List.mem_cons_self m rs))]
    exact ih l (fun x hx => h x (List.mem_cons_of_mem _ hx))

/-- C8: the message merge is idempotent — re-applying a message already in
the list leaves it unchanged, and re-applying a whole batch is a no-op — and
the list only ever grows by appending new messages at the end. -/
theorem add_messages_idempotent :
    (∀ (l : List IdMsg) (m : IdMsg), m ∈ l → addMessages l [m] = l) ∧
    (∀ l r : List IdMsg, addMessages (addMessages l r) r = addMessages l r) ∧
    (∀ l r : List IdMsg, ∃ suffix, addMessages l r = l ++ suffix) := by
  refine ⟨?_, ?_, ?_⟩
  · intro l m hm
    have ha : l.any (fun x => x.id == m.id) = true := by
      simp only [List.any_eq_true]
      exact ⟨m, hm, by simp⟩
    have hstep : addMessages l [m] =
        if l.any (fun x => x.id == m.id) then l else l ++ [m] := rfl
    rw [hstep, if_pos ha]
  · intro l r
    exact addMessages_of_all_present _ _ (fun m hm => id_mem_addMessages l r m hm)
  · intro l r
    induction r generalizing l with
    | nil => exact ⟨[], by simp [addMessages]⟩
    | cons m rs ih =>
      rw [addMessages_cons]
      split
      · exact ih l
      · obtain ⟨s, hs⟩ := ih (l ++ [m])
        exact ⟨m :: s, by rw [hs, List.append_assoc]; rfl⟩

/-- Witness for `add_messages_idempotent`: re-applying a present message. -/
theorem add_messages_idempotent_witness :
    addMessages [⟨1, "hi"⟩, ⟨2, "yo"⟩] [⟨1, "hi"⟩] =
      [⟨1, "hi"⟩, ⟨2, "yo"⟩] :=
  add_messages_idempotent.1 _ _ (by simp)

/-! ### Session-history theorems (C10) -/

/-- C10 counterexample: with the graph not yet built, a failing
checkpoint-store connection and a non-production environment,
`get_session_history` propagates the connection failure instead of
returning the empty list. -/
theorem get_session_history_raises_cex :
    getSessionHistory false false Environment.development
      (Except.error "connection refused") (Except.ok none) =
      Except.error "connection refused" := rfl

/-- C10 amended: provided the lazy graph build at entry does not itself
fail — the graph is already built, or the environment is production (where
the build degrades to checkpointer-less execution), or the pool opens —
`get_session_history` never raises: it returns the empty list without a
checkpointer, on a failing snapshot read, and on an empty snapshot; with a
checkpointer and a stored state it returns exactly the human/ai messages
projected to user/assistant role-content pairs in stored order.  In a
non-production environment with an unbuilt graph, a pool failure still
propagates (the counterexample). -/
theorem get_session_history_amended
    (graphBuilt cp : Bool) (env : Environment) (pool : Except String Unit)
    (snap : Except String (Option (List LcMsg)))
    (hbuild : graphBuilt = true ∨ env = .production ∨ ∃ u, pool = .ok u) :
    (∃ l, getSessionHistory graphBuilt cp env pool snap = .ok l) ∧
    (graphBuilt = true → cp = false →
      getSessionHistory graphBuilt cp env pool snap = .ok []) ∧
    (∀ e, snap = .error e →
      getSessionHistory graphBuilt cp env pool snap = .ok []) ∧
    (snap = .ok none →
      getSessionHistory graphBuilt cp env pool snap = .ok []) ∧
    (∀ msgs, snap = .ok (some msgs) → graphBuilt = true → cp = true →
      getSessionHistory graphBuilt cp env pool snap =
        .ok (projectHistory msgs)) ∧
    (∀ (msgs : List LcMsg) (m : Msg), m ∈ projectHistory msgs →
      m.role = "user" ∨ m.role = "assistant") := by
  have hcp : ∃ b, (if graphBuilt then Except.ok (ε := String) cp
      else buildCheckpointer env pool) = Except.ok b := by
    cases graphBuilt with
    | true => exact ⟨cp, rfl⟩
    | false =>
      rcases hbuild with h | h | ⟨u, hu⟩
      · exact absurd h (by simp)
      · cases pool with
        | ok u => exact ⟨true, by simp [buildCheckpointer]⟩
        | error e => exact ⟨false, by simp [buildCheckpointer, h]⟩
      · rw [hu]
        exact ⟨true, by simp [buildCheckpointer]⟩
  obtain ⟨b, hb⟩ := hcp
  refine ⟨?_, ?_, ?_, ?_, ?_, ?_⟩
  · unfold getSessionHistory
    rw [hb]
    cases b
    · exact ⟨[], rfl⟩
    · cases snap with
      | error e => exact ⟨[], rfl⟩
      | ok v =>
        cases v with
        | none => exact ⟨[], rfl⟩
        | some msgs => exact ⟨projectHistory msgs, rfl⟩
  · intro hg hc
    unfold getSessionHistory
    subst hg hc
    rfl
  · intro e he
    unfold getSessionHistory
    rw [hb, he]
    cases b <;> rfl
  · intro he
    unfold getSessionHistory
    rw [hb, he]
    cases b <;> rfl
  · intro msgs hs hg hc
    unfold getSessionHistory
    subst hg hc
    rw [hs]
    rfl
  · intro msgs m hm
    rcases List.mem_filterMap.mp hm with ⟨a, _, hfa⟩
    cases hk : a.kind <;> rw [hk] at hfa <;> simp at hfa
    · exact Or.inl (by rw [← hfa])
    · exact Or.inr (by rw [← hfa])

/-- Witness for `get_session_history_amended` on a built graph with a
checkpointer and a three-message snapshot. -/
theorem get_session_history_amended_witness :
    getSessionHistory true true Environment.development (Except.ok ())
      (Except.ok (some [⟨.human, "hi"⟩, ⟨.system, "s"⟩, ⟨.ai, "yo"⟩])) =
      Except.ok [⟨"user", "hi"⟩, ⟨"assistant", "yo"⟩] := by
  have := (get_session_history_amended true true Environment.development
    (Except.ok ())
    (Except.ok (some [⟨.human, "hi"⟩, ⟨.system, "s"⟩, ⟨.ai, "yo"⟩]))
    (Or.inl rfl)).2.2.2.2.1
    [⟨.human, "hi"⟩, ⟨.system, "s"⟩, ⟨.ai, "yo"⟩] rfl rfl rfl
  rw [this]
  rfl

/-- Witness for `respond_error_embedding_amended` on both agents. -/
theorem respond_error_embedding_amended_witness :
    strHas "oops" (ragRespondNode { ragInit with error := some "oops" }).response
      = true ∧
    strHas "neo down" (neoRespondNode 3
      { neoInitState "q" with
        executionError := some "neo down"
        evaluation := "E"
        cypher := "MATCH (n) RETURN n" }).response = true := by
  constructor
  · have := (respond_error_embedding_amended.1
      { ragInit with error := some "oops" } (by decide)).2
    simpa using this
  · have := (respond_error_embedding_amended.2 3
      { neoInitState "q" with
        executionError := some "neo down"
        evaluation := "E"
        cypher := "MATCH (n) RETURN n" }
      "neo down" (by decide) rfl rfl (by decide)).2
    exact this

/-! ### Neo4j retry-loop theorems (C1)

Step-equation and field-preservation lemmas for the workflow machine. -/

lemma neoStep_getSchema (m : ℕ) (o : NeoOracle) (s : NeoState) (g v e ev : ℕ) :
    neoStep m o ⟨.getSchema, s, g, v, e, ev⟩ =
      ⟨.analyze, neoGetSchemaNode o s, g, v, e, ev⟩ := rfl

lemma neoStep_analyze (m : ℕ) (o : NeoOracle) (s : NeoState) (g v e ev : ℕ) :
    neoStep m o ⟨.analyze, s, g, v, e, ev⟩ =
      ⟨.generate, neoAnalyzeNode o s, g, v, e, ev⟩ := rfl

lemma neoStep_generate (m : ℕ) (o : NeoOracle) (s : NeoState) (g v e ev : ℕ) :
    neoStep m o ⟨.generate, s, g, v, e, ev⟩ =
      ⟨.validate, neoGenerateNode o g s, g + 1, v, e, ev⟩ := rfl

lemma neoStep_validate (m : ℕ) (o : NeoOracle) (s : NeoState) (g v e ev : ℕ) :
    neoStep m o ⟨.validate, s, g, v, e, ev⟩ =
      ⟨match shouldRetryAfterValidation m (neoValidateNode o v s) with
        | .toRetry => .generate
        | .toExecute => .execRun,
       neoValidateNode o v s, g, v + 1, e, ev⟩ := rfl

lemma neoStep_execRun (m : ℕ) (o : NeoOracle) (s : NeoState) (g v e ev : ℕ) :
    neoStep m o ⟨.execRun, s, g, v, e, ev⟩ =
      ⟨.evaluate, neoExecuteNode o e s, g, v, e + 1, ev⟩ := rfl

lemma neoStep_evaluate (m : ℕ) (o : NeoOracle) (s : NeoState) (g v e ev : ℕ) :
    neoStep m o ⟨.evaluate, s, g, v, e, ev⟩ =
      ⟨match shouldRetryAfterEvaluation m (neoEvaluateNode o ev s) with
        | .toRetry => .generate
        | .toRespond => .respond,
       neoEvaluateNode o ev s, g, v, e, ev + 1⟩ := rfl

lemma neoStep_respond (m : ℕ) (o : NeoOracle) (s : NeoState) (g v e ev : ℕ) :
    neoStep m o ⟨.respond, s, g, v, e, ev⟩ =
      ⟨.done, neoRespondNode m s, g, v, e, ev⟩ := rfl

lemma neoStep_done (m : ℕ) (o : NeoOracle) (s : NeoState) (g v e ev : ℕ) :
    neoStep m o ⟨.done, s, g, v, e, ev⟩ = ⟨.done, s, g, v, e, ev⟩ := rfl

lemma attempt_generateNode (o : NeoOracle) (k : ℕ) (s : NeoState) :
    (neoGenerateNode o k s).attempt = s.attempt + 1 := by
  cases hg : o.genRes k with
  | ok r => simp [neoGenerateNode, hg]
  | error msg => simp [neoGenerateNode, hg, apply_ite]

lemma attempt_validateNode (o : NeoOracle) (k : ℕ) (s : NeoState) :
    (neoValidateNode o k s).attempt = s.attempt := by
  unfold neoValidateNode
  cases o.valRes k <;> rfl

lemma error_validateNode (o : NeoOracle) (k : ℕ) (s : NeoState) :
    (neoValidateNode o k s).error = s.error := by
  unfold neoValidateNode
  cases o.valRes k <;> rfl

lemma skip_validateNode (o : NeoOracle) (k : ℕ) (s : NeoState) :
    (neoValidateNode o k s).skipRetry = s.skipRetry := by
  unfold neoValidateNode
  cases o.valRes k <;> rfl

lemma attempt_executeNode (o : NeoOracle) (k : ℕ) (s : NeoState) :
    (neoExecuteNode o k s).attempt = s.attempt := by
  unfold neoExecuteNode
  cases o.execRes k <;> rfl

lemma attempt_evaluateNode (o : NeoOracle) (k : ℕ) (s : NeoState) :
    (neoEvaluateNode o k s).attempt = s.attempt := by
  unfold neoEvaluateNode
  split
  · rfl
  · split
    · rfl
    · cases o.evalRes k <;> rfl

lemma attempt_respondNode (m : ℕ) (s : NeoState) :
    (neoRespondNode m s).attempt = s.attempt := by
  unfold neoRespondNode
  split
  · rfl
  · split <;> rfl

lemma attempt_analyzeNode (o : NeoOracle) (s : NeoState) :
    (neoAnalyzeNode o s).attempt = s.attempt := by
  unfold neoAnalyzeNode
  cases o.analyzeRes <;> rfl

lemma validationRoute_retry_lt (m : ℕ) (s : NeoState)
    (h : shouldRetryAfterValidation m s = .toRetry) : s.attempt < m := by
  unfold shouldRetryAfterValidation at h
  split at h
  · cases h
  · split at h
    · rename_i hc
      exact of_decide_eq_true ((Bool.and_eq_true _ _).mp hc).2
    · cases h

lemma evalRoute_retry_lt (m : ℕ) (s : NeoState)
    (h : shouldRetryAfterEvaluation m s = .toRetry) : s.attempt < m := by
  unfold shouldRetryAfterEvaluation at h
  split at h
  · rename_i hc
    exact of_decide_eq_true ((Bool.and_eq_true _ _).mp hc).2
  · cases h

/-- Under validator responses that always report `valid = False` and
exception-free generation, the `generate → validate` loop started at attempt
`k` with `d = maxRetries - k` rounds left runs exactly `d` more rounds and
exits to `execute` with the attempt counter and both call counters at
`maxRetries`. -/
lemma neoLoop (maxRetries : ℕ) (o : NeoOracle)
    (hgen : ∀ k, ∃ r, o.genRes k = .ok r)
    (hval : ∀ k, ∃ v, o.valRes k = .ok v ∧ v.valid = false) :
    ∀ d k (s : NeoState), k + d = maxRetries → 1 ≤ d →
      s.attempt = k → s.error = "" → s.skipRetry = false →
      ∃ s2 : NeoState,
        (neoStep maxRetries o)^[2 * d] ⟨.generate, s, k, k, 0, 0⟩ =
          ⟨.execRun, s2, maxRetries, maxRetries, 0, 0⟩ ∧
        s2.attempt = maxRetries ∧ s2.error = "" ∧ s2.skipRetry = false := by
  intro d
  induction d with
  | zero => omega
  | succ d' ih =>
    intro k s hkd _ hatt herr hskip
    obtain ⟨r, hr⟩ := hgen k
    obtain ⟨v, hv, hvalid⟩ := hval k
    -- the generated state after one `generate` step
    set s1 : NeoState :=
      { s with cypher := extractCypher r, attempt := s.attempt + 1 } with hs1
    have hgen1 : neoGenerateNode o k s = s1 := by
      unfold neoGenerateNode
      rw [hr]
    -- the validated state after the following `validate` step
    set s2 : NeoState :=
      { s1 with validation := some v, validationPassed := v.valid } with hs2
    have hval1 : neoValidateNode o k s1 = s2 := by
      unfold neoValidateNode
      rw [hv]
    have hs2att : s2.attempt = k + 1 := by rw [hs2, hs1]; simp [hatt]
    have hs2err : s2.error = "" := by rw [hs2, hs1]; simpa using herr
    have hs2skip : s2.skipRetry = false := by rw [hs2, hs1]; simpa using hskip
    have hs2valid : s2.validationValid = false := by
      rw [hs2]
      simp [NeoState.validationValid, hvalid]
    have hroute : shouldRetryAfterValidation maxRetries s2 =
        (if k + 1 < maxRetries then .toRetry else .toExecute) := by
      unfold shouldRetryAfterValidation
      rw [hs2skip, hs2err, hs2valid, hs2att]
      have hemp : ("" : String).isEmpty = true := rfl
      simp [hemp]
    have htwo : (neoStep maxRetries o)^[2] ⟨.generate, s, k, k, 0, 0⟩ =
        ⟨(if k + 1 < maxRetries then NeoNode.generate else NeoNode.execRun),
          s2, k + 1, k + 1, 0, 0⟩ := by
      show neoStep maxRetries o (neoStep maxRetries o ⟨.generate, s, k, k, 0, 0⟩) = _
      rw [neoStep_generate, hgen1, neoStep_validate, hval1, hroute]
      rcases Nat.lt_or_ge (k + 1) maxRetries with hlt | hge
      · simp only [if_pos hlt]
      · simp only [if_neg (Nat.not_lt.mpr hge)]
    rcases Nat.eq_zero_or_pos d' with hz | hpos
    · -- last round: k + 1 = maxRetries, the edge exits to execute
      subst hz
      have hk1 : k + 1 = maxRetries := by omega
      refine ⟨s2, ?_, by omega, hs2err, hs2skip⟩
      have : (2 : ℕ) * 1 = 2 := by norm_num
      rw [this, htwo, if_neg (by omega)]
      rw [hk1]
    · -- at least one more round: the edge loops back to generate
      have hk1 : k + 1 < maxRetries := by omega
      obtain ⟨s3, hiter, h3a, h3e, h3s⟩ :=
        ih (k + 1) s2 (by omega) hpos hs2att hs2err hs2skip
      refine ⟨s3, ?_, h3a, h3e, h3s⟩
      have hsplit : 2 * (d' + 1) = 2 * d' + 2 := by ring
      rw [hsplit, Function.iterate_add_apply, htwo, if_pos hk1]
      exact hiter

/-- Entering `generate` with the attempt counter equal to the generate-call
counter and strictly below `max_retries`, the run reaches `done` within the
given fuel, having made at most `max_retries` generate calls — for every
oracle (the general termination bound). -/
lemma neoRunFromGenerate (m : ℕ) (o : NeoOracle) :
    ∀ (fuel : ℕ) (c : NeoCfg), c.node = .generate →
      c.st.attempt = c.genCalls → c.genCalls < m → m - c.genCalls ≤ fuel →
      ∃ n, ((neoStep m o)^[n] c).node = .done ∧
        ((neoStep m o)^[n] c).genCalls ≤ m := by
  intro fuel
  induction fuel with
  | zero => intro c _ _ hlt hfuel; omega
  | succ f ih =>
    intro c hnode hinv hlt hfuel
    obtain ⟨node, s, g, v, e, ev⟩ := c
    simp only at hnode hinv hlt hfuel
    subst hnode
    -- one generate step, then the validate step with its conditional edge
    have hstep2 : (neoStep m o)^[2] ⟨.generate, s, g, v, e, ev⟩ =
        ⟨match shouldRetryAfterValidation m
            (neoValidateNode o v (neoGenerateNode o g s)) with
          | .toRetry => .generate
          | .toExecute => .execRun,
         neoValidateNode o v (neoGenerateNode o g s), g + 1, v + 1, e, ev⟩ := by
      show neoStep m o (neoStep m o ⟨.generate, s, g, v, e, ev⟩) = _
      rw [neoStep_generate, neoStep_validate]
    have hatt2 : (neoValidateNode o v (neoGenerateNode o g s)).attempt = g + 1 := by
      rw [attempt_validateNode, attempt_generateNode, hinv]
    cases hroute : shouldRetryAfterValidation m
        (neoValidateNode o v (neoGenerateNode o g s)) with
    | toRetry =>
      -- loop back to generate with one more attempt
      have hlt2 : g + 1 < m := by
        have := validationRoute_retry_lt m _ hroute
        omega
      obtain ⟨n, hn, hg⟩ := ih
        ⟨.generate, neoValidateNode o v (neoGenerateNode o g s),
          g + 1, v + 1, e, ev⟩ rfl (by simpa using hatt2) hlt2
        (by show m - (g + 1) ≤ f; omega)
      refine ⟨n + 2, ?_, ?_⟩
      · rw [Function.iterate_add_apply, hstep2, hroute]
        exact hn
      · rw [Function.iterate_add_apply, hstep2, hroute]
        exact hg
    | toExecute =>
      -- on to execute and evaluate
      set sv := neoValidateNode o v (neoGenerateNode o g s) with hsv
      set sx := neoExecuteNode o e sv with hsx
      set se := neoEvaluateNode o ev sx with hse
      have hattx : sx.attempt = g + 1 := by
        rw [hsx, attempt_executeNode, hatt2]
      have hatte : se.attempt = g + 1 := by
        rw [hse, attempt_evaluateNode, hattx]
      have hstep4 : (neoStep m o)^[4] ⟨.generate, s, g, v, e, ev⟩ =
          ⟨match shouldRetryAfterEvaluation m se with
            | .toRetry => .generate
            | .toRespond => .respond,
           se, g + 1, v + 1, e + 1, ev + 1⟩ := by
        have h22 : (neoStep m o)^[4] ⟨.generate, s, g, v, e, ev⟩ =
            (neoStep m o)^[2] ((neoStep m o)^[2] ⟨.generate, s, g, v, e, ev⟩) := by
          rw [show (4 : ℕ) = 2 + 2 from by norm_num,
            Function.iterate_add_apply]
        rw [h22, hstep2, hroute]
        show neoStep m o (neoStep m o ⟨.execRun, sv, g + 1, v + 1, e, ev⟩) = _
        rw [neoStep_execRun, ← hsx, neoStep_evaluate, ← hse]
      cases heroute : shouldRetryAfterEvaluation m se with
      | toRetry =>
        have hlt2 : g + 1 < m := by
          have := evalRoute_retry_lt m _ heroute
          omega
        obtain ⟨n, hn, hg⟩ := ih
          ⟨.generate, se, g + 1, v + 1, e + 1, ev + 1⟩ rfl
          (by simpa using hatte) hlt2 (by show m - (g + 1) ≤ f; omega)
        refine ⟨n + 4, ?_, ?_⟩
        · rw [Function.iterate_add_apply, hstep4, heroute]
          exact hn
        · rw [Function.iterate_add_apply, hstep4, heroute]
          exact hg
      | toRespond =>
        have hdone : (neoStep m o)^[5] ⟨.generate, s, g, v, e, ev⟩ =
            ⟨.done, neoRespondNode m se, g + 1, v + 1, e + 1, ev + 1⟩ := by
          rw [show (5 : ℕ) = 1 + 4 from by norm_num,
            Function.iterate_add_apply, hstep4, heroute]
          show neoStep m o ⟨.respond, se, g + 1, v + 1, e + 1, ev + 1⟩ = _
          rw [neoStep_respond]
        refine ⟨5, ?_, ?_⟩
        · rw [hdone]
        · rw [hdone]
          show g + 1 ≤ m
          omega

/-- C1: with `max_retries ≥ 1` (the shipped setting is 3), a Structured-Query
run whose schema fetch, analysis and generation succeed and whose validator
and evaluator always request a retry invokes `generate` exactly `max_retries`
times and then reaches `respond` (the run is `done` after `2·max_retries + 5`
steps with `genCalls = attempt = max_retries`); every run under every oracle
terminates with at most `max_retries` generate calls; and the attempt counter
is changed by no node except `generate` (which increments it by exactly one)
and `get_schema` (which resets it to 0 on a successful fetch). -/
theorem neo4j_retry_termination (maxRetries : ℕ) (o : NeoOracle) (q : String)
    (hm : 1 ≤ maxRetries)
    (hsch : ∃ sch, o.schemaRes = .ok sch)
    (han : ∃ a, o.analyzeRes = .ok a)
    (hgen : ∀ k, ∃ r, o.genRes k = .ok r)
    (hval : ∀ k, ∃ v, o.valRes k = .ok v ∧ v.valid = false)
    (_heval : ∀ k, ∃ r, o.evalRes k = .ok r ∧
      strStarts (strUpper (strTrim r)) "RETRY" = true) :
    (((neoStep maxRetries o)^[2 * maxRetries + 5] (neoInit q)).node = .done ∧
     ((neoStep maxRetries o)^[2 * maxRetries + 5] (neoInit q)).genCalls =
       maxRetries ∧
     ((neoStep maxRetries o)^[2 * maxRetries + 5] (neoInit q)).st.attempt =
       maxRetries) ∧
    (∀ (o2 : NeoOracle) (q2 : String), ∃ n,
      ((neoStep maxRetries o2)^[n] (neoInit q2)).node = .done ∧
      ((neoStep maxRetries o2)^[n] (neoInit q2)).genCalls ≤ maxRetries) ∧
    (∀ (o2 : NeoOracle) (s : NeoState) (k : ℕ),
      (neoGenerateNode o2 k s).attempt = s.attempt + 1 ∧
      (neoAnalyzeNode o2 s).attempt = s.attempt ∧
      (neoValidateNode o2 k s).attempt = s.attempt ∧
      (neoExecuteNode o2 k s).attempt = s.attempt ∧
      (neoEvaluateNode o2 k s).attempt = s.attempt ∧
      (neoRespondNode k s).attempt = s.attempt ∧
      (∀ sch, o2.schemaRes = Except.ok sch →
        (neoGetSchemaNode o2 s).attempt = 0)) := by
  refine ⟨?_, ?_, ?_⟩
  · -- the exact always-retry trace
    obtain ⟨sch, hs⟩ := hsch
    obtain ⟨a, ha⟩ := han
    -- two steps to reach `generate` for the first time
    have hinit2 : (neoStep maxRetries o)^[2] (neoInit q) =
        ⟨.generate,
          { neoInitState q with schema := some sch, attempt := 0, analysis := some a }, 0, 0, 0, 0⟩ := by
      show neoStep maxRetries o (neoStep maxRetries o
        ⟨.getSchema, neoInitState q, 0, 0, 0, 0⟩) = _
      rw [neoStep_getSchema]
      have h1 : neoGetSchemaNode o (neoInitState q) =
          { neoInitState q with schema := some sch, attempt := 0 } := by
        unfold neoGetSchemaNode
        rw [hs]
      rw [h1, neoStep_analyze]
      have h2 : neoAnalyzeNode o
          { neoInitState q with schema := some sch, attempt := 0 } =
          { neoInitState q with schema := some sch, attempt := 0, analysis := some a } := by
        unfold neoAnalyzeNode
        rw [ha]
      rw [h2]
    obtain ⟨s2, hloop, h2att, h2err, h2skip⟩ :=
      neoLoop maxRetries o hgen hval maxRetries 0
        { neoInitState q with schema := some sch, attempt := 0, analysis := some a }
        (by omega) hm rfl rfl rfl
    -- after execute and evaluate the edge must go to respond
    set sx := neoExecuteNode o 0 s2 with hsx
    set se := neoEvaluateNode o 0 sx with hse
    have hattx : sx.attempt = maxRetries := by
      rw [hsx, attempt_executeNode, h2att]
    have hatte : se.attempt = maxRetries := by
      rw [hse, attempt_evaluateNode, hattx]
    have heroute : shouldRetryAfterEvaluation maxRetries se = .toRespond := by
      unfold shouldRetryAfterEvaluation
      rw [hatte]
      simp
    have hmain : (neoStep maxRetries o)^[2 * maxRetries + 5] (neoInit q) =
        ⟨.done, neoRespondNode maxRetries se,
          maxRetries, maxRetries, 1, 1⟩ := by
      have hsplit : 2 * maxRetries + 5 = 3 + (2 * maxRetries + 2) := by omega
      rw [hsplit, Function.iterate_add_apply, Function.iterate_add_apply,
        hinit2, hloop]
      show neoStep maxRetries o (neoStep maxRetries o
        (neoStep maxRetries o ⟨.execRun, s2, maxRetries, maxRetries, 0, 0⟩)) = _
      rw [neoStep_execRun, ← hsx, neoStep_evaluate, ← hse, heroute,
        neoStep_respond]
    rw [hmain]
    refine ⟨rfl, rfl, ?_⟩
    rw [attempt_respondNode, hatte]
  · -- general termination with at most `maxRetries` generate calls
    intro o2 q2
    have hinit2 : (neoStep maxRetries o2)^[2] (neoInit q2) =
        ⟨.generate, neoAnalyzeNode o2 (neoGetSchemaNode o2 (neoInitState q2)),
          0, 0, 0, 0⟩ := by
      show neoStep maxRetries o2 (neoStep maxRetries o2
        ⟨.getSchema, neoInitState q2, 0, 0, 0, 0⟩) = _
      rw [neoStep_getSchema, neoStep_analyze]
    have hatt0 : (neoAnalyzeNode o2
        (neoGetSchemaNode o2 (neoInitState q2))).attempt = 0 := by
      rw [attempt_analyzeNode]
      unfold neoGetSchemaNode
      cases o2.schemaRes <;> rfl
    obtain ⟨n, hn, hg⟩ := neoRunFromGenerate maxRetries o2 maxRetries
      ⟨.generate, neoAnalyzeNode o2 (neoGetSchemaNode o2 (neoInitState q2)),
        0, 0, 0, 0⟩ rfl (by simpa using hatt0)
      (by show (0 : ℕ) < maxRetries; omega)
      (by show maxRetries - 0 ≤ maxRetries; omega)
    refine ⟨n + 2, ?_, ?_⟩
    · rw [Function.iterate_add_apply, hinit2]
      exact hn
    · rw [Function.iterate_add_apply, hinit2]
      exact hg
  · -- the attempt counter moves only in `generate` / `get_schema`
    intro o2 s k
    refine ⟨attempt_generateNode o2 k s, attempt_analyzeNode o2 s,
      attempt_validateNode o2 k s, attempt_executeNode o2 k s,
      attempt_evaluateNode o2 k s, attempt_respondNode k s, ?_⟩
    intro sch hsch2
    unfold neoGetSchemaNode
    rw [hsch2]

/-- Witness for `neo4j_retry_termination`: the shipped `max_retries = 3`
against an oracle whose validator always reports invalid and whose evaluator
always answers `RETRY`, run for `2·3 + 5 = 11` steps. -/
theorem neo4j_retry_termination_witness :
    ((neoStep 3
        { schemaRes := .ok "schema", analyzeRes := .ok "analysis"
          genRes := fun _ => .ok "MATCH (n) RETURN n"
          valRes := fun _ => .ok ⟨false, ["bad syntax"], [], none⟩
          execRes := fun _ => .ok []
          evalRes := fun _ => .ok "RETRY: still wrong" })^[11]
      (neoInit "find nodes")).node = NeoNode.done ∧
    ((neoStep 3
        { schemaRes := .ok "schema", analyzeRes := .ok "analysis"
          genRes := fun _ => .ok "MATCH (n) RETURN n"
          valRes := fun _ => .ok ⟨false, ["bad syntax"], [], none⟩
          execRes := fun _ => .ok []
          evalRes := fun _ => .ok "RETRY: still wrong" })^[11]
      (neoInit "find nodes")).genCalls = 3 := by
  have h := neo4j_retry_termination 3
    { schemaRes := .ok "schema", analyzeRes := .ok "analysis"
      genRes := fun _ => .ok "MATCH (n) RETURN n"
      valRes := fun _ => .ok ⟨false, ["bad syntax"], [], none⟩
      execRes := fun _ => .ok []
      evalRes := fun _ => .ok "RETRY: still wrong" }
    "find nodes" (by omega) ⟨"schema", rfl⟩ ⟨"analysis", rfl⟩
    (fun _ => ⟨"MATCH (n) RETURN n", rfl⟩)
    (fun _ => ⟨⟨false, ["bad syntax"], [], none⟩, rfl, rfl⟩)
    (fun _ => ⟨"RETRY: still wrong", rfl, by decide⟩)
  exact ⟨h.1.1, h.1.2.1⟩

end Vpaura
